import Mathlib

/-!
Verification development for the FoodyZone marketplace backend:
a shallow embedding of the cart-pricing and order-state-machine
subsystem (cart recalculation in both cart controller variants,
addToCart, updateOrderStatus, the Stripe payment-succeeded webhook,
cancelOrder and returnOrder), together with theorems settling the
spec claims about those operations.

Conventions of the embedding:
* JavaScript numbers are `Int` (all money amounts in the code are
  integers produced by `Math.round`); `Math.round x` on a rational
  `num/den` is `roundHalfUp num den` (floor of `x + 1/2`, which is
  JavaScript round-half-up semantics).
* `Array.prototype.indexOf` on the status hierarchy is `indexOfStr`,
  returning `-1` when absent, as in the source.
* Mongoose references that may or may not be populated are modelled
  by `ProductRef`: a bare ObjectId carries no `docType`, so the
  `product.docType === "delivery"` test is false on it.
* JavaScript truthiness tests on numbers (`x ||`, `if (x)`) treat `0`
  as false; the embedding mirrors each such test explicitly.
* Handlers that answer an HTTP error before persisting return
  `Except.error msg`; the persisted state is then unchanged.
-/

namespace FoodyZone

/-- `Math.round (num / den)` for `den > 0`: round half up (toward plus
infinity), i.e. `⌊num/den + 1/2⌋`. -/
def roundHalfUp (num den : Int) : Int :=
  Int.fdiv (2 * num + den) (2 * den)

/-- JavaScript `Array.prototype.indexOf`: index of `s` in `l`, `-1` if absent. -/
def indexOfStr : List String → String → Int
  | [], _ => -1
  | x :: xs, s =>
    if x = s then 0
    else
      let r := indexOfStr xs s
      if r = -1 then -1 else r + 1

/-- The forward item-status ordering used by `updateOrderStatus`
(`itemHierarchy` in the source). -/
def hierarchy : List String :=
  ["pending", "confirmed", "processing", "shipped", "delivered"]

/-- The statuses accepted by `updateOrderStatus` (`validStatuses` in the source). -/
def validStatuses : List String :=
  ["pending", "confirmed", "processing", "shipped", "delivered", "cancelled", "returned"]

/-- An `items.product` reference: either a bare ObjectId (unpopulated) or a
populated product document carrying its `docType`. -/
inductive ProductRef where
  | oid (pid : Nat)
  | doc (pid : Nat) (docType : String)
  deriving Repr, DecidableEq

/-- The ObjectId underlying a reference (`item.product.toString()`). -/
def ProductRef.pid : ProductRef → Nat
  | .oid p => p
  | .doc p _ => p

/-- The test `product && typeof product === "object" && product.docType === "delivery"`:
a bare ObjectId is an object but has no `docType`, so only a populated document
with `docType === "delivery"` passes. -/
def ProductRef.isDeliveryDoc : ProductRef → Bool
  | .oid _ => false
  | .doc _ t => t = "delivery"

/-- One cart line item as persisted by `cart.model.js`. -/
structure CartItemA where
  product : ProductRef
  price : Int
  discountedPrice : Option Int
  quantity : Int
  totalPrice : Int
  totalDiscountedPrice : Int
  stock : Int
  sellerId : Nat
  deriving Repr, DecidableEq

/-- The snapshot stored in `cart.appliedCoupon`. -/
structure AppliedCouponA where
  couponId : Option Nat
  couponCode : String
  discountApplied : Int
  deriving Repr, DecidableEq

/-- The cart document fields touched by the variant-A controller. -/
structure CartA where
  items : List CartItemA
  appliedCoupon : Option AppliedCouponA
  totalItems : Int
  totalPrice : Int
  totalDiscountedPrice : Int
  totalSavings : Int
  restaurantCharges : Int
  couponDiscount : Int
  subtotal : Int
  finalTotal : Int
  deriving Repr, DecidableEq

/-- `i.discountedPrice || i.price`: JavaScript `||` falls back on `null`
and on `0` alike. -/
def effUnitA (i : CartItemA) : Int :=
  match i.discountedPrice with
  | some d => if d = 0 then i.price else d
  | none => i.price

/-- `cart.appliedCoupon && !cart.appliedCoupon.couponId` cleanup: a coupon
snapshot without a `couponId` is stripped. -/
def stripCoupon (c : Option AppliedCouponA) : Option AppliedCouponA :=
  match c with
  | some ac => if ac.couponId.isSome then some ac else none
  | none => none

/-- `cart.appliedCoupon && cart.appliedCoupon.discountApplied ? ... : 0`
(`0` is falsy, so a zero snapshot contributes zero either way). -/
def couponDiscountOf (c : Option AppliedCouponA) : Int :=
  match c with
  | some ac => if ac.discountApplied = 0 then 0 else ac.discountApplied
  | none => 0

/-- `recalculateCart` of `cart.controller.js` (identical local copy in
`order.controller.js`): recomputes every aggregate field from the line
items and the applied coupon.  Note the final total is
`totalDiscountedPrice - couponDiscount + restaurantCharges` with no
floor at zero. -/
def recalculateCartA (cart : CartA) : CartA :=
  let coupon0 := stripCoupon cart.appliedCoupon
  if cart.items.isEmpty then
    { cart with
      totalItems := 0, totalPrice := 0, totalDiscountedPrice := 0,
      totalSavings := 0, restaurantCharges := 0, couponDiscount := 0,
      subtotal := 0, finalTotal := 0, appliedCoupon := none }
  else
    let totalItems := cart.items.foldl (fun acc i => acc + i.quantity) 0
    let totalOriginal := cart.items.foldl (fun acc i => acc + i.price * i.quantity) 0
    let totalDiscounted := cart.items.foldl (fun acc i => acc + effUnitA i * i.quantity) 0
    let restCharges := cart.items.foldl
      (fun acc i => acc + (if i.product.isDeliveryDoc then 10 * i.quantity else 0)) 0
    let couponDiscount := couponDiscountOf coupon0
    let afterDiscounts := totalDiscounted - couponDiscount
    let subtotal := afterDiscounts + restCharges
    { cart with
      appliedCoupon := coupon0,
      totalItems := totalItems,
      totalPrice := totalOriginal,
      totalDiscountedPrice := totalDiscounted,
      totalSavings := totalOriginal - totalDiscounted,
      restaurantCharges := restCharges,
      couponDiscount := couponDiscount,
      subtotal := subtotal,
      finalTotal := subtotal }

/-- The product document fields read by `addToCart` (variant A). -/
structure ProductA where
  pid : Nat
  stock : Int
  inStock : Bool
  price : Int
  discount : Option Int
  sellerId : Nat
  deriving Repr, DecidableEq

instance : Inhabited CartItemA :=
  ⟨{ product := .oid 0, price := 0, discountedPrice := none, quantity := 0,
     totalPrice := 0, totalDiscountedPrice := 0, stock := 0, sellerId := 0 }⟩

/-- JavaScript `Array.prototype.findIndex`: `-1` when no element matches. -/
def findIndexList {α : Type} (p : α → Bool) : List α → Int
  | [] => -1
  | x :: xs =>
    if p x then 0
    else
      let r := findIndexList p xs
      if r = -1 then -1 else r + 1

/-- `discountedPrice` derived by `addToCart`:
`Math.round(price * (1 - discount / 100))` when `product.discount` is
truthy, otherwise `null`. -/
def discountedPriceOfProduct (p : ProductA) : Option Int :=
  match p.discount with
  | some d => if d = 0 then none else some (roundHalfUp (p.price * (100 - d)) 100)
  | none => none

/-- The line item pushed by `addToCart` for a product not yet in the cart
(`finalUnitPrice` is `discountedPrice !== null ? discountedPrice : price`,
an explicit null check, not truthiness). -/
def newCartItemA (p : ProductA) (q : Int) : CartItemA :=
  { product := .oid p.pid,
    price := p.price,
    discountedPrice := discountedPriceOfProduct p,
    quantity := q,
    totalPrice := p.price * q,
    totalDiscountedPrice := (discountedPriceOfProduct p).getD p.price * q,
    stock := p.stock,
    sellerId := p.sellerId }

/-- `addToCart` of `cart.controller.js`, from the point where the cart and
the product document have been fetched and `quantity` has passed the
`undefined`/`null`/`typeof` checks (so `q` is an arbitrary JavaScript
number).  There is no `quantity > 0` validation: a negative `q` merges
into an existing line (removing it when the merged quantity drops to
`0` or below) or is pushed as a new line with that quantity. -/
def addToCartA (cart : CartA) (p : ProductA) (q : Int) : Except String CartA :=
  let stock := p.stock
  if ¬ p.inStock ∨ stock ≤ 0 then
    Except.error ("Product is out of stock")
  else if stock < q then
    Except.error ("Insufficient stock. Available: " ++ toString stock)
  else
    let existingIndex := findIndexList (fun it => it.product.pid == p.pid) cart.items
    if 0 ≤ existingIndex then
      let idx := existingIndex.toNat
      let it := cart.items.getD idx default
      let newQty := it.quantity + q
      if newQty ≤ 0 then
        Except.ok (recalculateCartA { cart with items := cart.items.eraseIdx idx })
      else if stock ≠ 0 ∧ stock < newQty then
        Except.error ("Max available: " ++ toString stock)
      else
        let it' := { it with
          quantity := newQty,
          totalPrice := it.price * newQty,
          totalDiscountedPrice := effUnitA it * newQty }
        Except.ok (recalculateCartA { cart with items := cart.items.set idx it' })
    else
      Except.ok (recalculateCartA { cart with items := cart.items ++ [newCartItemA p q] })

/-- An `appliedCombos.comboId` reference: bare ObjectId or populated combo
document carrying its `discountPercentage`. -/
inductive ComboIdRef where
  | oid (cid : Nat)
  | doc (cid : Nat) (discountPercentage : Int)
  deriving Repr, DecidableEq

/-- `c.comboId._id ? c.comboId._id.toString() : c.comboId.toString()`. -/
def ComboIdRef.cid : ComboIdRef → Nat
  | .oid c => c
  | .doc c _ => c

/-- One line item of the combo-aware cart (the fields read by its
`recalculateCart`). -/
structure CartItemB where
  product : ProductRef
  comboOffer : Option Nat
  price : Int
  discountedPrice : Option Int
  quantity : Int
  deriving Repr, DecidableEq

/-- One `appliedCombos` entry: `{comboId, discountApplied}`. -/
structure ComboEntryB where
  comboId : Option ComboIdRef
  discountApplied : Int
  deriving Repr, DecidableEq

/-- The combo-aware cart document fields touched by `recalculateCart`. -/
structure CartB where
  items : List CartItemB
  appliedCombos : List ComboEntryB
  appliedCoupon : Option AppliedCouponA
  deliveryCharge : Int
  totalItems : Int
  totalPrice : Int
  totalDiscountedPrice : Int
  totalSavings : Int
  comboDiscount : Int
  couponDiscount : Int
  gst : Int
  subtotal : Int
  finalTotal : Int
  deriving Repr, DecidableEq

/-- `i.discountedPrice || i.price` for variant-B items. -/
def effUnitB (i : CartItemB) : Int :=
  match i.discountedPrice with
  | some d => if d = 0 then i.price else d
  | none => i.price

/-- `comboItemTotals[cId]`: discounted subtotal of the items tagged with
combo `cid` (missing key reads as `0`). -/
def comboItemTotal (items : List CartItemB) (cid : Nat) : Int :=
  items.foldl
    (fun acc i =>
      match i.comboOffer with
      | some c => if c = cid then acc + effUnitB i * i.quantity else acc
      | none => acc) 0

/-- One `appliedCombos.forEach` iteration: when the combo reference is
populated with a truthy `discountPercentage`, `discountApplied` is
re-derived (`Math.round(applicableTotal * pct / 100)`) and added;
otherwise the stored `discountApplied` is added when truthy.  Returns the
(possibly rewritten) entry and its contribution. -/
def comboStep (items : List CartItemB) (c : ComboEntryB) : ComboEntryB × Int :=
  match c.comboId with
  | none => (c, 0)
  | some (.doc cid pct) =>
    if pct = 0 then
      (c, if c.discountApplied = 0 then 0 else c.discountApplied)
    else
      let da := roundHalfUp (comboItemTotal items cid * pct) 100
      ({ c with discountApplied := da }, da)
  | some (.oid _) =>
    (c, if c.discountApplied = 0 then 0 else c.discountApplied)

/-- `recalculateCart` of the combo-aware cart controller.  GST is
`Math.round(afterAllDiscounts * 0.18)`, embedded as exact rational
rounding `roundHalfUp (18 * after) 100`; the final total is
`afterAllDiscounts + gst + deliveryCharge` with no floor at zero. -/
def recalculateCartB (cart : CartB) : CartB :=
  let coupon0 := stripCoupon cart.appliedCoupon
  if cart.items.isEmpty then
    { cart with
      totalItems := 0, totalPrice := 0, totalDiscountedPrice := 0,
      totalSavings := 0, comboDiscount := 0, couponDiscount := 0,
      deliveryCharge := 0, gst := 0, subtotal := 0, finalTotal := 0,
      appliedCombos := [], appliedCoupon := none }
  else
    let totalItems := cart.items.foldl (fun acc i => acc + i.quantity) 0
    let totalOriginal := cart.items.foldl (fun acc i => acc + i.price * i.quantity) 0
    let totalDiscounted := cart.items.foldl (fun acc i => acc + effUnitB i * i.quantity) 0
    let combos := cart.appliedCombos.map (comboStep cart.items)
    let comboDiscount := combos.foldl (fun acc p => acc + p.2) 0
    let couponDiscount := couponDiscountOf coupon0
    let afterAllDiscounts := totalDiscounted - comboDiscount - couponDiscount
    let gst := roundHalfUp (18 * afterAllDiscounts) 100
    let delivery := cart.deliveryCharge
    let subtotal := afterAllDiscounts + gst + delivery
    { cart with
      appliedCoupon := coupon0,
      appliedCombos := combos.map Prod.fst,
      totalItems := totalItems,
      totalPrice := totalOriginal,
      totalDiscountedPrice := totalDiscounted,
      totalSavings := totalOriginal - totalDiscounted,
      comboDiscount := comboDiscount,
      couponDiscount := couponDiscount,
      gst := gst,
      subtotal := subtotal,
      finalTotal := subtotal }

/-- The coupon document fields read by `applyCouponToCart`. -/
structure CouponDoc where
  cid : Nat
  code : String
  isActive : Bool
  startDate : Int
  endDate : Int
  usageCount : Int
  maxUsageLimit : Option Int
  usedBy : List (Nat × Int)
  perUserLimit : Option Int
  minOrderValue : Option Int
  discountType : String
  percentageValue : Int
  flatValue : Int
  maxDiscountAmount : Option Int
  deriving Repr, DecidableEq

/-- `coupon.perUserLimit || 1` (0 is falsy). -/
def perUserLimitOr1 (l : Option Int) : Int :=
  match l with
  | some v => if v = 0 then 1 else v
  | none => 1

/-- `applyCouponToCart` of `cart.controller.js` (the found coupon document
and the current date are inputs).  Validates activity, dates, usage
limits and minimum order value against `cart.totalPrice`, computes the
discount snapshot (percentage rounded and capped, or the flat value
uncapped) and stores it in `cart.appliedCoupon`.  The handler does not
recalculate the cart afterwards. -/
def applyCouponToCartA (userId : Nat) (now : Int) (cart : CartA) (coupon : CouponDoc) :
    Except String CartA :=
  if cart.items.isEmpty then
    Except.error ("Cart is empty")
  else if ¬ coupon.isActive then
    Except.error ("Coupon is not active")
  else if coupon.endDate < now then
    Except.error ("Coupon has expired")
  else if now < coupon.startDate then
    Except.error ("Coupon is not yet valid")
  else if (match coupon.maxUsageLimit with
      | some m => if m = 0 then false else decide (m ≤ coupon.usageCount)
      | none => false) then
    Except.error ("Coupon usage limit exceeded")
  else if (match coupon.usedBy.find? (fun u => u.1 == userId) with
      | some u => decide (perUserLimitOr1 coupon.perUserLimit ≤ u.2)
      | none => false) then
    Except.error ("You can use this coupon only " ++
      (match coupon.perUserLimit with | some l => toString l | none => "undefined") ++ " times")
  else
    let subtotal := cart.totalPrice
    if (match coupon.minOrderValue with
        | some m => if m = 0 then false else decide (subtotal < m)
        | none => false) then
      Except.error ("Minimum order value required")
    else
      let discountAmount : Int :=
        if coupon.discountType = "percentage" then
          let d := roundHalfUp (subtotal * coupon.percentageValue) 100
          match coupon.maxDiscountAmount with
          | some m => if m = 0 then d else if m < d then m else d
          | none => d
        else if coupon.discountType = "flat" then coupon.flatValue
        else 0
      if (match cart.appliedCoupon with
          | some ac => ac.couponId.isSome
          | none => false) then
        Except.error ("A coupon is already applied. Remove it first.")
      else
        Except.ok
          { cart with
            appliedCoupon := some
              { couponId := some coupon.cid,
                couponCode := coupon.code,
                discountApplied := discountAmount } }

/-- A `{status, timestamp, notes}` history record. -/
structure HistEntry where
  status : String
  timestamp : Nat
  notes : String
  deriving Repr, DecidableEq

/-- One order item: independent state machine with its own history. -/
structure OrderItem where
  id : Nat
  sellerId : Nat
  itemStatus : String
  statusHistory : List HistEntry
  deliveredAt : Option Nat
  cancelledAt : Option Nat
  deriving Repr, DecidableEq

/-- The named `timeline` timestamps stamped by the order lifecycle. -/
structure Timeline where
  orderCreated : Option Nat
  paymentCompleted : Option Nat
  orderConfirmed : Option Nat
  processingStarted : Option Nat
  orderShipped : Option Nat
  orderDelivered : Option Nat
  deriving Repr, DecidableEq

/-- The order document fields touched by the modelled handlers. -/
structure OrderSt where
  items : List OrderItem
  current : String
  history : List HistEntry
  paymentMethod : String
  paymentStatus : String
  transactionId : Option Nat
  paymentDate : Option Nat
  priceFinalTotal : Int
  refundAmount : Option Int
  refundDate : Option Nat
  cancellationReason : Option String
  returnReason : Option String
  timeline : Timeline
  actualDeliveryDate : Option Nat
  lastUpdated : Option Nat
  deriving Repr, DecidableEq

/-- The authenticated caller and body of a `PATCH /order/:orderId/status`
request. -/
structure UpdReq where
  userId : Nat
  role : String
  status : String
  notes : Option String
  itemId : Option Nat
  deriving Repr, DecidableEq

/-- JavaScript `notes || default` (absent and empty string both fall back). -/
def noteOr (n : Option String) (d : String) : String :=
  match n with
  | some s => if s = "" then d else s
  | none => d

/-- `s === "cancelled" || s === "returned"`. -/
def isTerminalStatus (s : String) : Bool :=
  s == "cancelled" || s == "returned"

/-- The skip-step error of `updateOrderStatus`:
`Cannot update item directly to <target>. Follow sequence: <cur> -> <next>`
(the source interpolates the same three status names). -/
def skipStepMsg (target cur next : String) : String :=
  "Cannot update item directly to " ++ target ++ ". Follow sequence: " ++
    cur ++ " -> " ++ next

/-- One iteration of the item loop of `updateOrderStatus`: returns the
(possibly updated) item and `1` when it counted toward `updatedCount`,
or the skip-step error, which in the source aborts the whole request
before anything is saved. -/
def processItem (req : UpdReq) (normalized : String) (now : Nat) (it : OrderItem) :
    Except String (OrderItem × Nat) :=
  if (match req.itemId with | some i => decide (i ≠ it.id) | none => false) then
    Except.ok (it, 0)
  else if req.role = "seller" ∧ it.sellerId ≠ req.userId then
    Except.ok (it, 0)
  else if req.role ≠ "admin" ∧ req.role ≠ "seller" then
    Except.ok (it, 0)
  else if it.itemStatus ≠ "cancelled" ∧ it.itemStatus ≠ "returned" then
    if normalized = "cancelled" ∨ normalized = "returned" then
      Except.ok
        ({ it with
            itemStatus := normalized,
            statusHistory := it.statusHistory ++
              [⟨normalized, now, noteOr req.notes ("Item " ++ normalized)⟩],
            cancelledAt := if normalized = "cancelled" then some now else it.cancelledAt },
          1)
    else
      if indexOfStr hierarchy normalized = -1 ∨ indexOfStr hierarchy it.itemStatus = -1 then
        Except.ok (it, 0)
      else if indexOfStr hierarchy normalized < indexOfStr hierarchy it.itemStatus then
        Except.ok (it, 0)
      else if indexOfStr hierarchy it.itemStatus + 1 < indexOfStr hierarchy normalized then
        Except.error (skipStepMsg normalized
          (hierarchy.getD (indexOfStr hierarchy it.itemStatus).toNat "")
          (hierarchy.getD (indexOfStr hierarchy it.itemStatus + 1).toNat ""))
      else
        Except.ok
          ({ it with
              itemStatus := normalized,
              statusHistory := it.statusHistory ++
                [⟨normalized, now, noteOr req.notes ("Item status updated to " ++ normalized)⟩],
              deliveredAt := if normalized = "delivered" then some now else it.deliveredAt },
            1)
  else
    Except.ok (it, 0)

/-- The item loop of `updateOrderStatus` over the whole item list,
accumulating `updatedCount` and propagating the first skip-step error. -/
def processItems (req : UpdReq) (normalized : String) (now : Nat) :
    List OrderItem → Except String (List OrderItem × Nat)
  | [] => Except.ok ([], 0)
  | it :: rest =>
    match processItem req normalized now it with
    | .error e => .error e
    | .ok (it', c) =>
      match processItems req normalized now rest with
      | .error e => .error e
      | .ok (rest', cs) => .ok (it' :: rest', c + cs)

/-- The auto-confirm pass of `updateOrderStatus`: when the payment is
completed, every item still `pending` advances to `confirmed` with a
synthetic history note. -/
def autoConfirm (now : Nat) (items : List OrderItem) : List OrderItem :=
  items.map fun it =>
    if it.itemStatus = "pending" then
      { it with
        itemStatus := "confirmed",
        statusHistory := it.statusHistory ++
          [⟨"confirmed", now, "Auto-confirmed after payment"⟩] }
    else it

/-- The `minStatusIndex` fold of `updateOrderStatus`: minimum hierarchy
index over the active items, starting from `hierarchy.length - 1`. -/
def minStatusIndex (active : List OrderItem) : Int :=
  active.foldl
    (fun acc i =>
      let idx := indexOfStr hierarchy i.itemStatus
      if idx ≠ -1 ∧ idx < acc then idx else acc) 4

/-- The `determinedStatus` computation of `updateOrderStatus` over the
active items: minimum-progress status, floored at `processing`/`shipped`
when some item is further along, `delivered` when all active items are. -/
def aggDetermined (active : List OrderItem) : String :=
  let minIdx := minStatusIndex active
  let d0 := hierarchy.getD minIdx.toNat ""
  let hasDelivered := active.any fun i => i.itemStatus == "delivered"
  let hasShipped := active.any fun i => i.itemStatus == "shipped"
  let hasProcessing := active.any fun i => i.itemStatus == "processing"
  let d1 := if minIdx < 2 ∧ (hasProcessing ∨ hasShipped ∨ hasDelivered) then "processing" else d0
  let d2 := if minIdx < 3 ∧ (hasShipped ∨ hasDelivered) then "shipped" else d1
  if active.all (fun i => i.itemStatus == "delivered") then "delivered" else d2

/-- The aggregate-status derivation of `updateOrderStatus`:
`aggDetermined` over the active (non-cancelled/returned) items,
`cancelled`/`returned` when no item is active, and never moved backward
relative to the previous aggregate status when both sit in the forward
hierarchy. -/
def computeAggregate (items : List OrderItem) (cur : String) : String :=
  let active := items.filter fun i => !(isTerminalStatus i.itemStatus)
  if active.isEmpty then
    if items.all (fun i => i.itemStatus == "cancelled") then "cancelled" else "returned"
  else
    if indexOfStr hierarchy cur ≠ -1 ∧ indexOfStr hierarchy (aggDetermined active) ≠ -1 ∧
        indexOfStr hierarchy (aggDetermined active) < indexOfStr hierarchy cur then cur
    else aggDetermined active

/-- The `statusMap` lookup of `updateOrderStatus`:
`{ "Under Progress": "processing" }[status] || status`. -/
def normalizeStatus (s : String) : String :=
  if s = "Under Progress" then "processing" else s

/-- `updateOrderStatus` (admin/seller fulfillment update).  An
`Except.error` answer models an HTTP error response sent before
`order.save()`, so the persisted order is unchanged in that case. -/
def updateOrderStatus (req : UpdReq) (now : Nat) (o : OrderSt) : Except String OrderSt :=
  let normalized := normalizeStatus req.status
  if ¬ validStatuses.contains normalized then
    Except.error ("Invalid status. Allowed: pending, confirmed, processing, shipped, delivered, cancelled, returned")
  else if (o.items.all fun i =>
      i.itemStatus == "delivered" || i.itemStatus == "returned" || i.itemStatus == "cancelled") ∧
      normalized ≠ "returned" then
    Except.error ("Order is fully delivered/completed. No further updates allowed.")
  else
    match processItems req normalized now o.items with
    | .error e => Except.error e
    | .ok (items1, count) =>
      let items2 := if o.paymentStatus = "completed" then autoConfirm now items1 else items1
      if count = 0 then
        Except.error ("No valid items found to update or permission denied")
      else
        let cur := computeAggregate items2 o.current
        let note := noteOr req.notes
          ("Status updated (" ++ toString count ++
            (if 1 < count then " items -> " else " item -> ") ++ normalized ++ ")")
        let hist :=
          match o.history.getLast? with
          | none => o.history ++ [⟨cur, now, note⟩]
          | some h => if h.status ≠ cur then o.history ++ [⟨cur, now, note⟩] else o.history
        let tl0 := o.timeline
        let tl1 := if cur = "confirmed" then
            { tl0 with orderConfirmed := some (tl0.orderConfirmed.getD now) } else tl0
        let tl2 := if cur = "processing" then
            { tl1 with processingStarted := some (tl1.processingStarted.getD now) } else tl1
        let tl3 := if cur = "shipped" then
            { tl2 with orderShipped := some (tl2.orderShipped.getD now) } else tl2
        let tl4 := if cur = "delivered" then
            { tl3 with orderDelivered := some (tl3.orderDelivered.getD now) } else tl3
        let add := if cur = "delivered" then some (o.actualDeliveryDate.getD now)
          else o.actualDeliveryDate
        let pay := if cur = "delivered" ∧ o.paymentMethod = "cod" ∧ o.paymentStatus ≠ "refunded"
          then "completed" else o.paymentStatus
        Except.ok
          { o with
            items := items2, current := cur, history := hist,
            timeline := tl4, actualDeliveryDate := add,
            paymentStatus := pay, lastUpdated := some now }

/-- The `payment_intent.succeeded` branch of `handleStripeWebhook` for an
order found by the intent metadata.  When the payment is not yet
completed it is marked completed; when additionally the aggregate status
is `pending`, every `pending` item is set to `confirmed` (with no
per-item `statusHistory` push) and a single order-level `confirmed`
history entry is appended. -/
def handlePaymentSucceeded (intentId : Nat) (now : Nat) (o : OrderSt) : OrderSt :=
  if o.paymentStatus = "completed" then o
  else
    let o1 := { o with
      paymentStatus := "completed",
      transactionId := some intentId,
      paymentDate := some now,
      timeline := { o.timeline with paymentCompleted := some now } }
    if o1.current = "pending" then
      { o1 with
        current := "confirmed",
        items := o1.items.map fun it =>
          if it.itemStatus = "pending" then { it with itemStatus := "confirmed" } else it,
        timeline := { o1.timeline with paymentCompleted := some now, orderConfirmed := some now },
        history := o1.history ++ [⟨"confirmed", now, "Payment verified via Stripe Webhook"⟩],
        lastUpdated := some now }
    else
      { o1 with lastUpdated := some now }

/-- User-facing `cancelOrder`: allowed only from aggregate status
`pending` or `confirmed`; on success sets the aggregate to `cancelled`
and appends one order-level history record, leaving the items untouched. -/
def cancelOrder (reason : Option String) (now : Nat) (o : OrderSt) : Except String OrderSt :=
  if o.current = "pending" ∨ o.current = "confirmed" then
    Except.ok
      { o with
        current := "cancelled",
        history := o.history ++ [⟨"cancelled", now, noteOr reason ("Cancelled by user")⟩],
        cancellationReason := some (noteOr reason ("No reason provided")),
        lastUpdated := some now }
  else
    Except.error ("Cannot cancel order with status: " ++ o.current)

/-- User-facing `returnOrder`: requires a reason and aggregate status
`delivered`; marks the order `returned` and the payment `refunded` with
`refundAmount = priceSummary.finalTotal`.  The returned `Bool` records
whether the handler invoked the Stripe refund capability
(`createStripeRefund`); the source never does. -/
def returnOrder (reason : String) (now : Nat) (o : OrderSt) :
    Except String (OrderSt × Bool) :=
  if reason = "" then
    Except.error ("Return reason required")
  else if o.current ≠ "delivered" then
    Except.error ("Only delivered orders can be returned")
  else
    Except.ok
      ({ o with
          current := "returned",
          history := o.history ++ [⟨"returned", now, reason⟩],
          returnReason := some reason,
          paymentStatus := "refunded",
          refundAmount := some o.priceFinalTotal,
          refundDate := some now,
          lastUpdated := some now },
        false)

/-- A blank per-item history order item, as `createOrder` builds them. -/
def mkOrdItem (i : Nat) (s : String) : OrderItem :=
  { id := i, sellerId := 9, itemStatus := s, statusHistory := [],
    deliveredAt := none, cancelledAt := none }

/-- A timeline with only `orderCreated` stamped. -/
def tlCreated : Timeline :=
  { orderCreated := some 0, paymentCompleted := none, orderConfirmed := none,
    processingStarted := none, orderShipped := none, orderDelivered := none }

/-- A freshly created order (per `createOrder`) with the given items and
aggregate status. -/
def baseOrder (items : List OrderItem) (cur : String) : OrderSt :=
  { items := items, current := cur,
    history := [⟨"pending", 0, "Order created successfully"⟩],
    paymentMethod := "cod", paymentStatus := "pending",
    transactionId := none, paymentDate := none, priceFinalTotal := 500,
    refundAmount := none, refundDate := none,
    cancellationReason := none, returnReason := none,
    timeline := tlCreated, actualDeliveryDate := none, lastUpdated := none }

def c9order : OrderSt := baseOrder [mkOrdItem 1 "pending"] "pending"

def c9result : OrderSt := (cancelOrder (some ("mind changed")) 3 c9order).toOption.getD c9order

def c10order : OrderSt := baseOrder [mkOrdItem 1 "delivered"] "delivered"

def c10pair : OrderSt × Bool :=
  (returnOrder "item damaged" 9 c10order).toOption.getD (c10order, true)

def c1Cart0 : CartA :=
  { items := [], appliedCoupon := none, totalItems := 0, totalPrice := 0,
    totalDiscountedPrice := 0, totalSavings := 0, restaurantCharges := 0,
    couponDiscount := 0, subtotal := 0, finalTotal := 0 }

def c1Prod : ProductA :=
  { pid := 1, stock := 5, inStock := true, price := 100, discount := none, sellerId := 2 }

/-- A flat coupon worth 150, active, unrestricted: `applyCouponToCart`
never caps a flat value at the cart subtotal. -/
def c1Coupon : CouponDoc :=
  { cid := 7, code := "FLAT150", isActive := true, startDate := 0, endDate := 100,
    usageCount := 0, maxUsageLimit := none, usedBy := [], perUserLimit := none,
    minOrderValue := none, discountType := "flat", percentageValue := 0,
    flatValue := 150, maxDiscountAmount := none }

def c1Cart1 : CartA := (addToCartA c1Cart0 c1Prod 1).toOption.getD c1Cart0

def c1Cart2 : CartA := (applyCouponToCartA 77 50 c1Cart1 c1Coupon).toOption.getD c1Cart1

/-- A one-item combo cart with a delivery charge, for the variant-B witness. -/
def c1WitB : CartB :=
  { items := [{ product := .oid 3, comboOffer := none, price := 100,
                discountedPrice := some 80, quantity := 2 }],
    appliedCombos := [], appliedCoupon := none, deliveryCharge := 10,
    totalItems := 0, totalPrice := 0, totalDiscountedPrice := 0, totalSavings := 0,
    comboDiscount := 0, couponDiscount := 0, gst := 0, subtotal := 0, finalTotal := 0 }

def c2order : OrderSt :=
  { baseOrder [mkOrdItem 1 "pending", mkOrdItem 2 "pending"] "pending" with
    paymentMethod := "card" }

def c2once : OrderSt := handlePaymentSucceeded 42 5 c2order

/-- The persisted line-item data apart from the reference's population
state: product ObjectId, unit price, discounted unit price, quantity. -/
def storedItemDataA (i : CartItemA) : Nat × Int × Option Int × Int :=
  (i.product.pid, i.price, i.discountedPrice, i.quantity)

def c3popCart : CartA :=
  { c1Cart0 with
    items := [{ product := .doc 1 "delivery", price := 100, discountedPrice := none,
                quantity := 2, totalPrice := 200, totalDiscountedPrice := 200,
                stock := 5, sellerId := 2 }] }

def c3bareCart : CartA :=
  { c1Cart0 with
    items := [{ product := .oid 1, price := 100, discountedPrice := none,
                quantity := 2, totalPrice := 200, totalDiscountedPrice := 200,
                stock := 5, sellerId := 2 }] }

/-- The aggregate fields of a variant-A cart. -/
def aggA (c : CartA) : Int × Int × Int × Int × Int × Int × Int × Int :=
  (c.totalItems, c.totalPrice, c.totalDiscountedPrice, c.totalSavings,
   c.restaurantCharges, c.couponDiscount, c.subtotal, c.finalTotal)

def c4result : CartA := (addToCartA c1Cart0 c1Prod (-1)).toOption.getD c1Cart0

/-- One `updateOrderStatus` request against the persisted order: on an
error response the order is unchanged (nothing was saved). -/
def applyUpd (o : OrderSt) (r : UpdReq × Nat) : OrderSt :=
  match updateOrderStatus r.1 r.2 o with
  | .ok o' => o'
  | .error _ => o

/-- A sequence of `updateOrderStatus` requests applied in order. -/
def runUpds (o : OrderSt) (rs : List (UpdReq × Nat)) : OrderSt :=
  rs.foldl applyUpd o

/-- An `updateOrderStatus` request body with a fixed admin caller. -/
def updReq (role status : String) (iid : Option Nat) : UpdReq :=
  { userId := 99, role := role, status := status, notes := none, itemId := iid }

def c7order : OrderSt := baseOrder [mkOrdItem 1 "pending", mkOrdItem 2 "pending"] "pending"

def c7reqs : List (UpdReq × Nat) :=
  [(updReq "admin" "confirmed" none, 4), (updReq "admin" "processing" none, 6)]

def c8o0 : OrderSt :=
  baseOrder [mkOrdItem 1 "pending", mkOrdItem 2 "pending", mkOrdItem 3 "pending"] "pending"

def c8o1 : OrderSt := applyUpd c8o0 (updReq "admin" "cancelled" (some 1), 5)

def c8o2 : OrderSt := applyUpd c8o1 (updReq "admin" "cancelled" (some 2), 6)

def c8o3 : OrderSt := applyUpd c8o2 (updReq "admin" "cancelled" (some 3), 7)

def c5order : OrderSt := baseOrder [mkOrdItem 1 "confirmed"] "confirmed"

/-- A cart holding one line of `c1Prod` at quantity 1, for the C4 merge
witness. -/
def c4mergeCart : CartA :=
  { c1Cart0 with items := [newCartItemA c1Prod 1] }

/-- The merged line `addToCart` writes over an existing matching line:
quantity summed, line totals recomputed from it. -/
def mergedCartItemA (it : CartItemA) (q : Int) : CartItemA :=
  { it with
    quantity := it.quantity + q,
    totalPrice := it.price * (it.quantity + q),
    totalDiscountedPrice := effUnitA it * (it.quantity + q) }

def c6multiOrder : OrderSt :=
  baseOrder [mkOrdItem 1 "processing", mkOrdItem 2 "pending"] "pending"

def c6multiReq : UpdReq := updReq "admin" "confirmed" none

def c6multi1 : OrderSt := applyUpd c6multiOrder (c6multiReq, 5)

/-! ## Theorems -/

theorem indexOfStr_bounds (l : List String) (s : String) :
    indexOfStr l s = -1 ∨ (0 ≤ indexOfStr l s ∧ indexOfStr l s < l.length) := by
  induction l with
  | nil => left; rfl
  | cons x xs ih =>
    by_cases hx : x = s
    · right
      simp [indexOfStr, hx]
    · rcases ih with h | h
      · left
        simp [indexOfStr, hx, h]
      · right
        have hne : indexOfStr xs s ≠ -1 := by omega
        simp only [indexOfStr, if_neg hx, if_neg hne, List.length_cons]
        push_cast
        omega

theorem indexOfStr_mem (l : List String) (s : String) (h : 0 ≤ indexOfStr l s) : s ∈ l := by
  induction l with
  | nil => simp [indexOfStr] at h
  | cons x xs ih =>
    by_cases hx : x = s
    · simp [hx]
    · rcases indexOfStr_bounds xs s with h' | h'
      · simp [indexOfStr, hx, h'] at h
      · right
        exact ih h'.1

theorem findIndexList_of_all_false {α : Type} (p : α → Bool) (l : List α)
    (h : ∀ x ∈ l, p x = false) : findIndexList p l = -1 := by
  induction l with
  | nil => rfl
  | cons x xs ih =>
    have hx := h x (by simp)
    have hxs := ih fun y hy => h y (by simp [hy])
    simp [findIndexList, hx, hxs]

theorem roundHalfUp_nonneg (num den : Int) (hn : 0 ≤ num) (hd : 0 < den) :
    0 ≤ roundHalfUp num den := by
  unfold roundHalfUp
  exact Int.fdiv_nonneg (by omega) (by omega)

/-- C9: `cancelOrder` succeeds exactly when the aggregate status is
`pending` or `confirmed` (anything else yields an error and, the handler
answering before `order.save()`, an unchanged order); on success it sets
the aggregate to `cancelled` and appends exactly one order-level history
record while leaving the items — their `itemStatus` and `statusHistory`
included — untouched. -/
theorem C9_cancelOrder_spec (reason : Option String) (now : Nat) (o o' : OrderSt) :
    (cancelOrder reason now o = Except.ok o' →
      (o.current = "pending" ∨ o.current = "confirmed") ∧
      o'.current = "cancelled" ∧
      o'.history = o.history ++ [⟨"cancelled", now, noteOr reason ("Cancelled by user")⟩] ∧
      o'.items = o.items) ∧
    (¬ (o.current = "pending" ∨ o.current = "confirmed") →
      cancelOrder reason now o =
        Except.error ("Cannot cancel order with status: " ++ o.current)) := by
  constructor
  · intro h
    unfold cancelOrder at h
    split at h
    · rename_i hc
      injection h with h'
      subst h'
      exact ⟨hc, rfl, rfl, rfl⟩
    · exact absurd h (by simp)
  · intro hc
    unfold cancelOrder
    rw [if_neg hc]

/-- Witness for C9 at a concrete pending order. -/
theorem C9_cancelOrder_spec_witness :
    (c9order.current = "pending" ∨ c9order.current = "confirmed") ∧
    c9result.current = "cancelled" ∧ c9result.items = c9order.items :=
  have h := (C9_cancelOrder_spec (some ("mind changed")) 3 c9order c9result).1 (by rfl)
  ⟨h.1, h.2.1, h.2.2.2⟩

/-- C10: `returnOrder` is applicable only to orders whose aggregate status
is `delivered`; on success it marks the order `returned` and, in the same
step, the payment `refunded` with `refundAmount` equal to the frozen
`priceSummary.finalTotal` and a refund date — and it never invokes the
payment gateway's refund capability (the returned flag records any
`createStripeRefund` call). -/
theorem C10_returnOrder_spec (reason : String) (now : Nat) (o o' : OrderSt) (b : Bool) :
    (returnOrder reason now o = Except.ok (o', b) →
      o.current = "delivered" ∧
      o'.current = "returned" ∧
      o'.paymentStatus = "refunded" ∧
      o'.refundAmount = some o.priceFinalTotal ∧
      o'.refundDate = some now ∧
      b = false) ∧
    (o.current ≠ "delivered" →
      returnOrder reason now o =
        Except.error (if reason = "" then "Return reason required"
          else "Only delivered orders can be returned")) := by
  constructor
  · intro h
    unfold returnOrder at h
    split at h
    · exact absurd h (by simp)
    · split at h
      · exact absurd h (by simp)
      · rename_i hne
        injection h with h'
        rw [Prod.mk.injEq] at h'
        obtain ⟨ho, hb⟩ := h'
        subst ho
        subst hb
        refine ⟨not_ne_iff.mp hne, rfl, rfl, rfl, rfl, rfl⟩
  · intro hc
    unfold returnOrder
    by_cases hr : reason = ""
    · rw [if_pos hr, if_pos hr]
    · rw [if_neg hr, if_neg hr, if_pos hc]

/-- Witness for C10 at a concrete delivered order. -/
theorem C10_returnOrder_spec_witness :
    c10order.current = "delivered" ∧
    c10pair.1.current = "returned" ∧
    c10pair.1.paymentStatus = "refunded" ∧
    c10pair.1.refundAmount = some c10order.priceFinalTotal ∧
    c10pair.2 = false :=
  have h := (C10_returnOrder_spec "item damaged" 9 c10order c10pair.1 c10pair.2).1 (by rfl)
  ⟨h.1, h.2.1, h.2.2.1, h.2.2.2.1, h.2.2.2.2.2⟩

/-- C1 counterexample: a cart reached through the cart operations (add one
item at price 100, apply a flat-150 coupon) whose recomputed `finalTotal`
is `-50`: `recalculateCart` subtracts the coupon discount with no floor
at zero. -/
theorem C1_finalTotal_counterexample :
    addToCartA c1Cart0 c1Prod 1 = Except.ok c1Cart1 ∧
    applyCouponToCartA 77 50 c1Cart1 c1Coupon = Except.ok c1Cart2 ∧
    (recalculateCartA c1Cart2).finalTotal = -50 ∧
    (recalculateCartA c1Cart2).finalTotal < 0 :=
  ⟨by rfl, by rfl, by rfl, by decide⟩

/-- C1 amended: neither `recalculateCart` variant floors the total at
zero; instead, whenever the recomputed discounts do not exceed the
recomputed discounted subtotal (and the recomputed surcharge, resp. the
stored delivery charge, is nonnegative), the recomputed `finalTotal` is
nonnegative.  In variant B the GST term is nonnegative because the taxed
base is. -/
theorem C1_finalTotal_amended :
    (∀ c : CartA,
      (recalculateCartA c).couponDiscount ≤ (recalculateCartA c).totalDiscountedPrice →
      0 ≤ (recalculateCartA c).restaurantCharges →
      0 ≤ (recalculateCartA c).finalTotal) ∧
    (∀ c : CartB,
      (recalculateCartB c).comboDiscount + (recalculateCartB c).couponDiscount ≤
        (recalculateCartB c).totalDiscountedPrice →
      0 ≤ c.deliveryCharge →
      0 ≤ (recalculateCartB c).finalTotal) := by
  constructor
  · intro c h1 h2
    by_cases hc : c.items.isEmpty
    · simp [recalculateCartA, hc]
    · simp only [recalculateCartA, hc, if_false, Bool.false_eq_true] at h1 h2 ⊢
      omega
  · intro c h1 h2
    by_cases hc : c.items.isEmpty
    · simp [recalculateCartB, hc]
    · simp only [recalculateCartB, hc, if_false, Bool.false_eq_true] at h1 h2 ⊢
      have hgst := roundHalfUp_nonneg
        (18 * ((c.items.foldl (fun acc i => acc + effUnitB i * i.quantity) 0) -
          ((c.appliedCombos.map (comboStep c.items)).foldl (fun acc p => acc + p.2) 0) -
          couponDiscountOf (stripCoupon c.appliedCoupon))) 100 (by omega) (by omega)
      omega

/-- Witness for the amended C1 at concrete carts of both variants. -/
theorem C1_finalTotal_amended_witness :
    0 ≤ (recalculateCartA c1Cart1).finalTotal ∧ 0 ≤ (recalculateCartB c1WitB).finalTotal :=
  ⟨C1_finalTotal_amended.1 c1Cart1 (by decide) (by decide),
   C1_finalTotal_amended.2 c1WitB (by decide) (by decide)⟩

/-- C2 counterexample: on a 2-item pending order, the webhook advances
both items to `confirmed` but appends no per-item `statusHistory` entry
(the counts stay 0), so "exactly one history entry is added per item" is
false; only one order-level entry is pushed. -/
theorem C2_webhook_counterexample :
    c2once.items.map (fun i => i.itemStatus) = ["confirmed", "confirmed"] ∧
    c2once.items.map (fun i => i.statusHistory.length) = [0, 0] ∧
    ¬ (∀ i ∈ c2once.items, i.statusHistory.length = 1) ∧
    c2once.history.length = c2order.history.length + 1 := by
  refine ⟨by rfl, by rfl, by decide, by rfl⟩

/-- C2 amended: for an order whose payment is not completed and whose
aggregate status is `pending`, the webhook advances every `pending` item
to `confirmed` leaving each item's `statusHistory` untouched, appends
exactly one order-level `confirmed` history entry, and marks the payment
completed; and the handler is idempotent — reprocessing the event (any
intent id, any time) leaves the order exactly as after the first
processing. -/
theorem C2_webhook_amended :
    (∀ (o : OrderSt) (pid now : Nat),
      o.paymentStatus ≠ "completed" → o.current = "pending" →
      (handlePaymentSucceeded pid now o).items =
        o.items.map (fun it =>
          if it.itemStatus = "pending" then { it with itemStatus := "confirmed" } else it) ∧
      (handlePaymentSucceeded pid now o).current = "confirmed" ∧
      (handlePaymentSucceeded pid now o).history =
        o.history ++ [⟨"confirmed", now, "Payment verified via Stripe Webhook"⟩] ∧
      (handlePaymentSucceeded pid now o).paymentStatus = "completed") ∧
    (∀ (o : OrderSt) (pid now pid2 now2 : Nat),
      handlePaymentSucceeded pid2 now2 (handlePaymentSucceeded pid now o) =
        handlePaymentSucceeded pid now o) := by
  constructor
  · intro o pid now h1 h2
    simp [handlePaymentSucceeded, h1, h2]
  · intro o pid now pid2 now2
    by_cases hp : o.paymentStatus = "completed"
    · simp [handlePaymentSucceeded, hp]
    · by_cases hcur : o.current = "pending"
      · simp [handlePaymentSucceeded, hp, hcur]
      · simp [handlePaymentSucceeded, hp, hcur]

/-- Witness for the amended C2 at the concrete 2-item order. -/
theorem C2_webhook_amended_witness :
    c2once.items =
      c2order.items.map (fun it =>
        if it.itemStatus = "pending" then { it with itemStatus := "confirmed" } else it) ∧
    c2once.current = "confirmed" ∧
    c2once.paymentStatus = "completed" :=
  have h := C2_webhook_amended.1 c2order 42 5 (by decide) (by rfl)
  ⟨h.1, h.2.1, h.2.2.2⟩

/-- C3 counterexample: two carts with identical stored line items (same
product id, prices, quantity) and identical offers, differing only in
whether the product reference is a populated document or a bare id,
recompute different `restaurantCharges` (20 vs 0) and `finalTotal`
(220 vs 200): the aggregates are not a function of items + offers alone. -/
theorem C3_determinism_counterexample :
    c3popCart.items.map storedItemDataA = c3bareCart.items.map storedItemDataA ∧
    c3popCart.appliedCoupon = c3bareCart.appliedCoupon ∧
    (recalculateCartA c3popCart).restaurantCharges = 20 ∧
    (recalculateCartA c3bareCart).restaurantCharges = 0 ∧
    (recalculateCartA c3popCart).finalTotal ≠ (recalculateCartA c3bareCart).finalTotal := by
  refine ⟨by rfl, by rfl, by rfl, by rfl, by decide⟩

theorem stripCoupon_idem (c : Option AppliedCouponA) :
    stripCoupon (stripCoupon c) = stripCoupon c := by
  cases c with
  | none => rfl
  | some ac =>
    by_cases h : ac.couponId.isSome
    · simp [stripCoupon, h]
    · simp [stripCoupon, h]

/-- C3 amended: the recomputed aggregates are a deterministic function of
the full in-memory item entries (population state of the product
references included) plus the applied coupon, and recomputation is
idempotent — but by the counterexample they are not independent of the
references' population state. -/
theorem C3_determinism_amended :
    (∀ c1 c2 : CartA, c1.items = c2.items → c1.appliedCoupon = c2.appliedCoupon →
      aggA (recalculateCartA c1) = aggA (recalculateCartA c2)) ∧
    (∀ c : CartA, recalculateCartA (recalculateCartA c) = recalculateCartA c) := by
  constructor
  · intro c1 c2 h1 h2
    by_cases hc : c1.items.isEmpty
    · have hc2 : c2.items.isEmpty := by rw [← h1]; exact hc
      simp [recalculateCartA, aggA, hc, hc2]
    · have hc2 : ¬ c2.items.isEmpty := by rw [← h1]; exact hc
      simp [recalculateCartA, aggA, hc, hc2, h1, h2]
  · intro c
    by_cases hc : c.items.isEmpty
    · simp [recalculateCartA, hc]
    · simp [recalculateCartA, hc, stripCoupon_idem]

/-- Witness for the amended C3: determinism applied to the two concrete
carts sharing their full item state, and idempotence at a concrete cart. -/
theorem C3_determinism_amended_witness :
    aggA (recalculateCartA c3popCart) =
      aggA (recalculateCartA { c3popCart with finalTotal := 999 }) ∧
    recalculateCartA (recalculateCartA c3popCart) = recalculateCartA c3popCart :=
  ⟨C3_determinism_amended.1 c3popCart { c3popCart with finalTotal := 999 } (by rfl) (by rfl),
   C3_determinism_amended.2 c3popCart⟩

/-- C4 counterexample: `addToCart` with quantity `-1` on an in-stock
product not yet in the cart does not fail — it succeeds and pushes a
line item with quantity `-1`: there is no `quantity > 0` validation. -/
theorem C4_addToCart_counterexample :
    addToCartA c1Cart0 c1Prod (-1) = Except.ok c4result ∧
    c4result.items = [newCartItemA c1Prod (-1)] ∧
    (newCartItemA c1Prod (-1)).quantity = -1 := by
  refine ⟨by rfl, by rfl, by rfl⟩

theorem findIndexList_append_first {α : Type} (p : α → Bool) (pre : List α) (x : α)
    (post : List α) (hpre : ∀ y ∈ pre, p y = false) (hx : p x = true) :
    findIndexList p (pre ++ x :: post) = pre.length := by
  induction pre with
  | nil => simp [findIndexList, hx]
  | cons z zs ih =>
    have hz := hpre z (by simp)
    have hzs := ih fun y hy => hpre y (by simp [hy])
    have hne : ((zs.length : Int)) ≠ -1 := by omega
    have hrw : zs.append (x :: post) = zs ++ x :: post := rfl
    simp only [List.cons_append, findIndexList, hz, Bool.false_eq_true, if_false]
    rw [hrw, hzs, if_neg hne]
    push_cast [List.length_cons]
    omega

theorem getD_append_cons {α : Type} (pre : List α) (x : α) (post : List α) (d : α) :
    (pre ++ x :: post).getD pre.length d = x := by
  induction pre with
  | nil => rfl
  | cons z zs ih => simpa using ih

/-- C4 amended: `addToCart` validates only that the quantity is a present
number, never that it is positive.  For a quantity `q ≤ 0` on an
in-stock product: with no matching cart line the call succeeds and
appends a new line carrying quantity `q`; with a matching line it merges
— removing the line when the merged quantity drops to `≤ 0`, succeeding
with the merged quantity otherwise, unless the (still positive) merged
quantity exceeds the fresh stock, in which case the unrelated stock cap
rejects with "Max available".  In no case is a quantity-positivity
validation error raised. -/
theorem C4_addToCart_amended :
    (∀ (c : CartA) (p : ProductA) (q : Int),
      q ≤ 0 → p.inStock = true → 0 < p.stock →
      (∀ i ∈ c.items, i.product.pid ≠ p.pid) →
      addToCartA c p q =
        Except.ok (recalculateCartA { c with items := c.items ++ [newCartItemA p q] })) ∧
    (∀ (c : CartA) (p : ProductA) (q : Int) (pre : List CartItemA) (it : CartItemA)
        (post : List CartItemA),
      q ≤ 0 → p.inStock = true → 0 < p.stock →
      c.items = pre ++ it :: post →
      (∀ i ∈ pre, i.product.pid ≠ p.pid) → it.product.pid = p.pid →
      (it.quantity + q ≤ 0 →
        addToCartA c p q =
          Except.ok (recalculateCartA { c with items := c.items.eraseIdx pre.length })) ∧
      (0 < it.quantity + q → p.stock < it.quantity + q →
        addToCartA c p q = Except.error ("Max available: " ++ toString p.stock)) ∧
      (0 < it.quantity + q → it.quantity + q ≤ p.stock →
        addToCartA c p q =
          Except.ok (recalculateCartA
            { c with items := c.items.set pre.length (mergedCartItemA it q) }))) := by
  constructor
  · intro c p q hq hin hstock hnew
    have hfind : findIndexList (fun it => it.product.pid == p.pid) c.items = -1 :=
      findIndexList_of_all_false _ _ (fun x hx => by simp [hnew x hx])
    simp only [addToCartA, hfind, hin]
    rw [if_neg (by simp only [not_true, false_or]; omega), if_neg (by omega),
      if_neg (by omega)]
  · intro c p q pre it post hq hin hstock hitems hpre hit
    have hfind : findIndexList (fun i => i.product.pid == p.pid) c.items = pre.length := by
      rw [hitems]
      exact findIndexList_append_first _ pre it post
        (fun y hy => by simp [hpre y hy]) (by simp [hit])
    have hgetD : c.items.getD pre.length default = it := by
      rw [hitems]
      exact getD_append_cons pre it post default
    refine ⟨?_, ?_, ?_⟩
    · intro hle
      simp only [addToCartA, hfind, hin, Int.toNat_natCast, hgetD]
      rw [if_neg (by simp only [not_true, false_or]; omega), if_neg (by omega),
        if_pos (by omega), if_pos hle]
    · intro hpos hover
      simp only [addToCartA, hfind, hin, Int.toNat_natCast, hgetD]
      rw [if_neg (by simp only [not_true, false_or]; omega), if_neg (by omega),
        if_pos (by omega), if_neg (by omega), if_pos (by omega)]
    · intro hpos hfit
      simp only [addToCartA, hfind, hin, Int.toNat_natCast, hgetD]
      rw [if_neg (by simp only [not_true, false_or]; omega), if_neg (by omega),
        if_pos (by omega), if_neg (by omega), if_neg (by omega)]
      rfl

/-- Witness for the amended C4: quantity `-2` on an empty cart appends a
line with quantity `-2`; quantity `-1` against an existing quantity-1
line merges to `0` and removes the line. -/
theorem C4_addToCart_amended_witness :
    addToCartA c1Cart0 c1Prod (-2) =
      Except.ok (recalculateCartA { c1Cart0 with items := c1Cart0.items ++ [newCartItemA c1Prod (-2)] }) ∧
    addToCartA c4mergeCart c1Prod (-1) =
      Except.ok (recalculateCartA { c4mergeCart with items := c4mergeCart.items.eraseIdx 0 }) :=
  ⟨C4_addToCart_amended.1 c1Cart0 c1Prod (-2) (by decide) (by rfl) (by decide) (by decide),
   (C4_addToCart_amended.2 c4mergeCart c1Prod (-1) [] (newCartItemA c1Prod 1) []
      (by decide) (by rfl) (by decide) (by rfl) (by decide) (by rfl)).1 (by decide)⟩

theorem processItem_skip_id (req : UpdReq) (n : String) (now : Nat) (x : OrderItem)
    (i : Nat) (hi : req.itemId = some i) (hx : x.id ≠ i) :
    processItem req n now x = Except.ok (x, 0) := by
  unfold processItem
  rw [hi]
  simp [Ne.symm hx]

theorem processItem_terminal (req : UpdReq) (n : String) (now : Nat) (x : OrderItem)
    (hx : isTerminalStatus x.itemStatus = true) :
    processItem req n now x = Except.ok (x, 0) := by
  have hne : ¬ (x.itemStatus ≠ "cancelled" ∧ x.itemStatus ≠ "returned") := by
    simp only [isTerminalStatus, Bool.or_eq_true, beq_iff_eq] at hx
    rcases hx with h | h <;> simp [h]
  unfold processItem
  rw [if_neg hne]
  split_ifs <;> rfl

theorem processItems_all_skip (req : UpdReq) (n : String) (now : Nat) (l : List OrderItem)
    (h : ∀ x ∈ l, processItem req n now x = Except.ok (x, 0)) :
    processItems req n now l = Except.ok (l, 0) := by
  induction l with
  | nil => rfl
  | cons x xs ih =>
    have hx := h x (by simp)
    have hxs := ih fun y hy => h y (by simp [hy])
    simp [processItems, hx, hxs]

theorem processItems_append_error (req : UpdReq) (n : String) (now : Nat)
    (pre rest : List OrderItem) (e : String)
    (hpre : ∀ x ∈ pre, processItem req n now x = Except.ok (x, 0))
    (hrest : processItems req n now rest = Except.error e) :
    processItems req n now (pre ++ rest) = Except.error e := by
  induction pre with
  | nil => simpa using hrest
  | cons x xs ih =>
    have hx := hpre x (by simp)
    have hxs := ih fun y hy => hpre y (by simp [hy])
    simp [processItems, hx, hxs]

theorem minStatusIndex_bound (l : List OrderItem) :
    0 ≤ minStatusIndex l ∧ minStatusIndex l ≤ 4 := by
  unfold minStatusIndex
  suffices h : ∀ a : Int, 0 ≤ a → a ≤ 4 →
      0 ≤ l.foldl (fun acc i =>
        let idx := indexOfStr hierarchy i.itemStatus
        if idx ≠ -1 ∧ idx < acc then idx else acc) a ∧
      l.foldl (fun acc i =>
        let idx := indexOfStr hierarchy i.itemStatus
        if idx ≠ -1 ∧ idx < acc then idx else acc) a ≤ 4 by
    exact h 4 (by omega) (by omega)
  induction l with
  | nil => intro a h0 h4; exact ⟨h0, h4⟩
  | cons x xs ih =>
    intro a h0 h4
    simp only [List.foldl_cons]
    by_cases hx : indexOfStr hierarchy x.itemStatus ≠ -1 ∧ indexOfStr hierarchy x.itemStatus < a
    · rcases indexOfStr_bounds hierarchy x.itemStatus with h | h
      · exact absurd h hx.1
      · simp only [hx, if_true, if_pos hx]
        exact ih _ (by omega) (by omega)
    · simp only [if_neg hx]
      exact ih a h0 h4

theorem getD_hierarchy_nonneg (n : Nat) (h : n ≤ 4) :
    0 ≤ indexOfStr hierarchy (hierarchy.getD n "") := by
  interval_cases n <;> decide

theorem aggDetermined_idx_nonneg (active : List OrderItem) :
    0 ≤ indexOfStr hierarchy (aggDetermined active) := by
  have hb := minStatusIndex_bound active
  simp only [aggDetermined]
  split_ifs <;> first
    | decide
    | exact getD_hierarchy_nonneg (minStatusIndex active).toNat (by omega)

theorem computeAggregate_mono (items : List OrderItem) (cur : String)
    (h0 : 0 ≤ indexOfStr hierarchy cur)
    (h1 : 0 ≤ indexOfStr hierarchy (computeAggregate items cur)) :
    indexOfStr hierarchy cur ≤ indexOfStr hierarchy (computeAggregate items cur) := by
  unfold computeAggregate at h1 ⊢
  by_cases he : (items.filter fun i => !(isTerminalStatus i.itemStatus)).isEmpty
  · rw [if_pos he] at h1 ⊢
    by_cases ha : items.all (fun i => i.itemStatus == "cancelled") = true
    · rw [if_pos ha] at h1
      exact absurd h1 (by decide)
    · rw [if_neg ha] at h1
      exact absurd h1 (by decide)
  · rw [if_neg he] at h1 ⊢
    by_cases hg : indexOfStr hierarchy cur ≠ -1 ∧
        indexOfStr hierarchy (aggDetermined (items.filter fun i => !(isTerminalStatus i.itemStatus))) ≠ -1 ∧
        indexOfStr hierarchy (aggDetermined (items.filter fun i => !(isTerminalStatus i.itemStatus))) <
          indexOfStr hierarchy cur
    · rw [if_pos hg] at h1 ⊢
    · rw [if_neg hg] at h1 ⊢
      have hd := aggDetermined_idx_nonneg (items.filter fun i => !(isTerminalStatus i.itemStatus))
      push_neg at hg
      have := hg (by omega) (by omega)
      omega

theorem computeAggregate_out_terminal (items : List OrderItem) (cur : String)
    (h : ¬ 0 ≤ indexOfStr hierarchy (computeAggregate items cur)) :
    ∀ it ∈ items, isTerminalStatus it.itemStatus = true := by
  unfold computeAggregate at h
  by_cases he : (items.filter fun i => !(isTerminalStatus i.itemStatus)).isEmpty
  · intro it hit
    by_contra hterm
    have hmem : it ∈ items.filter fun i => !(isTerminalStatus i.itemStatus) :=
      List.mem_filter.2 ⟨hit, by simp [hterm]⟩
    rw [List.isEmpty_iff] at he
    rw [he] at hmem
    exact absurd hmem (by simp)
  · rw [if_neg he] at h
    by_cases hg : indexOfStr hierarchy cur ≠ -1 ∧
        indexOfStr hierarchy (aggDetermined (items.filter fun i => !(isTerminalStatus i.itemStatus))) ≠ -1 ∧
        indexOfStr hierarchy (aggDetermined (items.filter fun i => !(isTerminalStatus i.itemStatus))) <
          indexOfStr hierarchy cur
    · rw [if_pos hg] at h
      rcases indexOfStr_bounds hierarchy cur with hb | hb
      · exact absurd hb hg.1
      · exact absurd hb.1 h
    · rw [if_neg hg] at h
      exact absurd (aggDetermined_idx_nonneg _) h

theorem computeAggregate_terminal (items : List OrderItem) (cur : String)
    (h : ∀ it ∈ items, isTerminalStatus it.itemStatus = true) :
    computeAggregate items cur =
      if items.all (fun i => i.itemStatus == "cancelled") then "cancelled" else "returned" := by
  unfold computeAggregate
  have he : (items.filter fun i => !(isTerminalStatus i.itemStatus)) = [] := by
    rw [List.filter_eq_nil_iff]
    intro a ha
    simp [h a ha]
  rw [if_pos (by simp [he])]

theorem updateOrderStatus_ok_current (req : UpdReq) (now : Nat) (o o' : OrderSt)
    (h : updateOrderStatus req now o = Except.ok o') :
    o'.current = computeAggregate o'.items o.current := by
  unfold updateOrderStatus at h
  by_cases c1 : validStatuses.contains (normalizeStatus req.status)
  · rw [if_neg (by simpa using c1)] at h
    by_cases c2 : (o.items.all fun i =>
        i.itemStatus == "delivered" || i.itemStatus == "returned" ||
          i.itemStatus == "cancelled") = true ∧ normalizeStatus req.status ≠ "returned"
    · rw [if_pos c2] at h
      exact absurd h (by simp)
    · rw [if_neg c2] at h
      cases hpe : processItems req (normalizeStatus req.status) now o.items with
      | error e =>
        rw [hpe] at h
        exact absurd h (by simp)
      | ok pr =>
        obtain ⟨items1, count⟩ := pr
        simp only [hpe] at h
        by_cases c4 : count = 0
        · rw [if_pos c4] at h
          exact absurd h (by simp)
        · rw [if_neg c4] at h
          injection h with h'
          subst h'
          rfl
  · rw [if_pos (by simpa using c1)] at h
    exact absurd h (by simp)

theorem updateOrderStatus_terminal_ne_ok (req : UpdReq) (now : Nat) (o : OrderSt)
    (h : ∀ it ∈ o.items, isTerminalStatus it.itemStatus = true) (o' : OrderSt) :
    updateOrderStatus req now o ≠ Except.ok o' := by
  intro hcontra
  unfold updateOrderStatus at hcontra
  by_cases c1 : validStatuses.contains (normalizeStatus req.status)
  · rw [if_neg (by simpa using c1)] at hcontra
    by_cases c2 : (o.items.all fun i =>
        i.itemStatus == "delivered" || i.itemStatus == "returned" ||
          i.itemStatus == "cancelled") = true ∧ normalizeStatus req.status ≠ "returned"
    · rw [if_pos c2] at hcontra
      exact absurd hcontra (by simp)
    · rw [if_neg c2] at hcontra
      have hproc := processItems_all_skip req (normalizeStatus req.status) now o.items
        (fun x hx => processItem_terminal _ _ _ _ (h x hx))
      simp only [hproc] at hcontra
      simp at hcontra
  · rw [if_pos (by simpa using c1)] at hcontra
    exact absurd hcontra (by simp)

theorem applyUpd_terminal (o : OrderSt) (r : UpdReq × Nat)
    (h : ∀ it ∈ o.items, isTerminalStatus it.itemStatus = true) :
    applyUpd o r = o := by
  unfold applyUpd
  cases hpe : updateOrderStatus r.1 r.2 o with
  | error e => rfl
  | ok o' => exact absurd hpe (updateOrderStatus_terminal_ne_ok r.1 r.2 o h o')

theorem runUpds_terminal (o : OrderSt) (rs : List (UpdReq × Nat))
    (h : ∀ it ∈ o.items, isTerminalStatus it.itemStatus = true) :
    runUpds o rs = o := by
  induction rs with
  | nil => rfl
  | cons r rest ih =>
    have : runUpds o (r :: rest) = runUpds (applyUpd o r) rest := rfl
    rw [this, applyUpd_terminal o r h]
    exact ih

theorem applyUpd_mono (o : OrderSt) (r : UpdReq × Nat)
    (h0 : 0 ≤ indexOfStr hierarchy o.current)
    (h1 : 0 ≤ indexOfStr hierarchy (applyUpd o r).current) :
    indexOfStr hierarchy o.current ≤ indexOfStr hierarchy (applyUpd o r).current := by
  unfold applyUpd at h1 ⊢
  cases hpe : updateOrderStatus r.1 r.2 o with
  | error e =>
    simp only [hpe]
    omega
  | ok o' =>
    simp only [hpe] at h1 ⊢
    rw [updateOrderStatus_ok_current r.1 r.2 o o' hpe] at h1 ⊢
    exact computeAggregate_mono o'.items o.current h0 h1

theorem applyUpd_out_terminal (o : OrderSt) (r : UpdReq × Nat)
    (h0 : 0 ≤ indexOfStr hierarchy o.current)
    (h1 : ¬ 0 ≤ indexOfStr hierarchy (applyUpd o r).current) :
    ∀ it ∈ (applyUpd o r).items, isTerminalStatus it.itemStatus = true := by
  unfold applyUpd at h1 ⊢
  cases hpe : updateOrderStatus r.1 r.2 o with
  | error e =>
    simp only [hpe] at h1
    exact absurd h0 h1
  | ok o' =>
    simp only [hpe] at h1 ⊢
    rw [updateOrderStatus_ok_current r.1 r.2 o o' hpe] at h1
    exact computeAggregate_out_terminal o'.items o.current h1

/-- C7: across any sequence of `updateOrderStatus` operations, the
aggregate `orderStatus.current` never moves to a status strictly earlier
in the forward hierarchy than one it previously attained: whenever the
starting and the resulting aggregate are both in the forward hierarchy
(i.e. neither is cancelled/returned), the hierarchy index never
decreases.  The starting order is arbitrary, so the statement covers
every previously attained point of a trace. -/
theorem C7_aggregate_monotone (o : OrderSt) (rs : List (UpdReq × Nat))
    (h0 : 0 ≤ indexOfStr hierarchy o.current)
    (h1 : 0 ≤ indexOfStr hierarchy (runUpds o rs).current) :
    indexOfStr hierarchy o.current ≤ indexOfStr hierarchy (runUpds o rs).current := by
  induction rs generalizing o with
  | nil =>
    simp only [runUpds, List.foldl_nil] at h1 ⊢
    omega
  | cons r rest ih =>
    have hrw : runUpds o (r :: rest) = runUpds (applyUpd o r) rest := rfl
    rw [hrw] at h1 ⊢
    by_cases h2 : 0 ≤ indexOfStr hierarchy (applyUpd o r).current
    · exact le_trans (applyUpd_mono o r h0 h2) (ih (applyUpd o r) h2 h1)
    · rw [runUpds_terminal (applyUpd o r) rest (applyUpd_out_terminal o r h0 h2)] at h1
      exact absurd h1 h2

/-- Witness for C7: a concrete two-step trace (confirm all, then start
processing) on a two-item pending order. -/
theorem C7_aggregate_monotone_witness :
    indexOfStr hierarchy c7order.current ≤
      indexOfStr hierarchy (runUpds c7order c7reqs).current :=
  C7_aggregate_monotone c7order c7reqs (by decide) (by decide)

/-- C8: after a successful `updateOrderStatus`, if every item of the
resulting order is terminal (cancelled or returned), the aggregate is
`cancelled` exactly when all items are cancelled and `returned` when the
terminal items are mixed. -/
theorem C8_terminal_aggregate (req : UpdReq) (now : Nat) (o o' : OrderSt)
    (h : updateOrderStatus req now o = Except.ok o')
    (hterm : ∀ it ∈ o'.items, isTerminalStatus it.itemStatus = true) :
    o'.current =
      if o'.items.all (fun i => i.itemStatus == "cancelled") then "cancelled"
      else "returned" := by
  rw [updateOrderStatus_ok_current req now o o' h]
  exact computeAggregate_terminal o'.items o.current hterm

/-- Witness for C8: cancelling each item of a 3-item order individually
makes the aggregate status `cancelled` after the third cancellation. -/
theorem C8_terminal_aggregate_witness : c8o3.current = "cancelled" := by
  have h : updateOrderStatus (updReq "admin" "cancelled" (some 3)) 7 c8o2 = Except.ok c8o3 := by
    rfl
  have h2 := C8_terminal_aggregate (updReq "admin" "cancelled" (some 3)) 7 c8o2 c8o3 h
    (by decide)
  exact h2.trans (by rfl)

theorem processItem_skip_step (req : UpdReq) (t : String) (now : Nat) (x : OrderItem)
    (hid : req.itemId = some x.id) (hrole : req.role = "admin")
    (hk : 0 ≤ indexOfStr hierarchy x.itemStatus)
    (ht : 0 ≤ indexOfStr hierarchy t)
    (hskip : indexOfStr hierarchy x.itemStatus + 1 < indexOfStr hierarchy t) :
    processItem req t now x =
      Except.error (skipStepMsg t
        (hierarchy.getD (indexOfStr hierarchy x.itemStatus).toNat "")
        (hierarchy.getD (indexOfStr hierarchy x.itemStatus + 1).toNat "")) := by
  have hnc : x.itemStatus ≠ "cancelled" := by
    intro he
    rw [he] at hk
    exact absurd hk (by decide)
  have hnr : x.itemStatus ≠ "returned" := by
    intro he
    rw [he] at hk
    exact absurd hk (by decide)
  have htc : ¬ (t = "cancelled" ∨ t = "returned") := by
    rintro (he | he) <;> (rw [he] at ht; exact absurd ht (by decide))
  unfold processItem
  rw [hid, hrole]
  rw [if_neg (by simp)]
  rw [if_neg (by simp)]
  rw [if_neg (by simp)]
  rw [if_pos ⟨hnc, hnr⟩]
  rw [if_neg htc]
  rw [if_neg (by omega)]
  rw [if_neg (by omega)]
  rw [if_pos (by omega)]

theorem processItem_backward (req : UpdReq) (t : String) (now : Nat) (x : OrderItem)
    (hid : req.itemId = some x.id) (hrole : req.role = "admin")
    (ht : 0 ≤ indexOfStr hierarchy t)
    (hlt : indexOfStr hierarchy t < indexOfStr hierarchy x.itemStatus) :
    processItem req t now x = Except.ok (x, 0) := by
  have hk : 0 ≤ indexOfStr hierarchy x.itemStatus := by omega
  have hnc : x.itemStatus ≠ "cancelled" := by
    intro he
    rw [he] at hk
    exact absurd hk (by decide)
  have hnr : x.itemStatus ≠ "returned" := by
    intro he
    rw [he] at hk
    exact absurd hk (by decide)
  have htc : ¬ (t = "cancelled" ∨ t = "returned") := by
    rintro (he | he) <;> (rw [he] at ht; exact absurd ht (by decide))
  unfold processItem
  rw [hid, hrole]
  rw [if_neg (by simp)]
  rw [if_neg (by simp)]
  rw [if_neg (by simp)]
  rw [if_pos ⟨hnc, hnr⟩]
  rw [if_neg htc]
  rw [if_neg (by omega)]
  rw [if_pos (by omega)]

theorem indexOfStr_lt_length (l : List String) (s : String) :
    indexOfStr l s < l.length := by
  rcases indexOfStr_bounds l s with h | h
  · rw [h]
    omega
  · exact h.2

/-- C5: a status-update request that would skip a step of the forward
item ordering (requested index more than one past the item's index, the
request not being a cancellation/return) fails before anything is saved,
with an error message naming the required intermediate step
(`hierarchy[oldIdx + 1]`); for the witness instance, from `confirmed` a
request for `shipped` fails naming `processing`. -/
theorem C5_skip_step_error (pre post : List OrderItem) (target : OrderItem)
    (notes : Option String) (uid now : Nat) (t : String) (o : OrderSt)
    (hitems : o.items = pre ++ target :: post)
    (hpre : ∀ x ∈ pre, x.id ≠ target.id)
    (hk : 0 ≤ indexOfStr hierarchy target.itemStatus)
    (hskip : indexOfStr hierarchy target.itemStatus + 1 < indexOfStr hierarchy t) :
    updateOrderStatus
        { userId := uid, role := "admin", status := t, notes := notes,
          itemId := some target.id } now o =
      Except.error (skipStepMsg t
        (hierarchy.getD (indexOfStr hierarchy target.itemStatus).toNat "")
        (hierarchy.getD (indexOfStr hierarchy target.itemStatus + 1).toNat "")) := by
  have hlen : indexOfStr hierarchy t < 5 := indexOfStr_lt_length hierarchy t
  have ht : 0 ≤ indexOfStr hierarchy t := by omega
  have htmem : t ∈ hierarchy := indexOfStr_mem hierarchy t ht
  have hU : normalizeStatus t = t := by
    unfold normalizeStatus
    rw [if_neg (by fin_cases htmem <;> decide)]
  have htv : t ∈ validStatuses := by
    fin_cases htmem <;> decide
  have hsfin : (target.itemStatus == "delivered" || target.itemStatus == "returned" ||
      target.itemStatus == "cancelled") = false := by
    have hnd : target.itemStatus ≠ "delivered" := by
      intro he
      have h4 : indexOfStr hierarchy "delivered" = 4 := by decide
      rw [he, h4] at hskip
      omega
    have hnc : target.itemStatus ≠ "cancelled" := by
      intro he
      rw [he] at hk
      exact absurd hk (by decide)
    have hnr : target.itemStatus ≠ "returned" := by
      intro he
      rw [he] at hk
      exact absurd hk (by decide)
    simp [beq_eq_false_iff_ne, hnd, hnc, hnr]
  have hfin : (o.items.all fun i =>
      i.itemStatus == "delivered" || i.itemStatus == "returned" ||
        i.itemStatus == "cancelled") = false := by
    rw [hitems, List.all_eq_false]
    exact ⟨target, by simp, by simp [hsfin]⟩
  have herr := processItems_append_error
    { userId := uid, role := "admin", status := t, notes := notes, itemId := some target.id }
    t now pre (target :: post)
    (skipStepMsg t (hierarchy.getD (indexOfStr hierarchy target.itemStatus).toNat "")
      (hierarchy.getD (indexOfStr hierarchy target.itemStatus + 1).toNat ""))
    (fun x hx => processItem_skip_id _ t now x target.id rfl (hpre x hx))
    (by
      have hstep := processItem_skip_step
        { userId := uid, role := "admin", status := t, notes := notes,
          itemId := some target.id } t now target rfl rfl hk ht hskip
      unfold processItems
      rw [hstep])
  unfold updateOrderStatus
  simp only [hU]
  rw [if_neg (by simp [htv])]
  rw [if_neg (by simp [hfin])]
  rw [hitems, herr]

/-- C6 counterexample: a backward status-update request (an order whose
single item is `processing`, requested status `confirmed`) leaves the
item unchanged (nothing is saved) but is NOT silent: the handler answers
with the generic "No valid items found to update or permission denied"
error instead of succeeding quietly. -/
theorem C6_backward_counterexample :
    updateOrderStatus (updReq "admin" "confirmed" (some 1)) 5
        (baseOrder [mkOrdItem 1 "processing"] "processing") =
      Except.error "No valid items found to update or permission denied" := by
  rfl

theorem processItem_backward_any (req : UpdReq) (t : String) (now : Nat) (x : OrderItem)
    (ht : 0 ≤ indexOfStr hierarchy t)
    (hlt : indexOfStr hierarchy t < indexOfStr hierarchy x.itemStatus) :
    processItem req t now x = Except.ok (x, 0) := by
  have htc : ¬ (t = "cancelled" ∨ t = "returned") := by
    rintro (he | he) <;> (rw [he] at ht; exact absurd ht (by decide))
  unfold processItem
  split_ifs <;> rfl

theorem processItems_skip_preserved (req : UpdReq) (n : String) (now : Nat) (x : OrderItem)
    (hx : processItem req n now x = Except.ok (x, 0)) :
    ∀ (pre post r : List OrderItem) (c : Nat),
      processItems req n now (pre ++ x :: post) = Except.ok (r, c) →
      ∃ rpre rpost, r = rpre ++ x :: rpost ∧ rpre.length = pre.length := by
  intro pre
  induction pre with
  | nil =>
    intro post r c h
    simp only [List.nil_append] at h
    unfold processItems at h
    cases hpost : processItems req n now post with
    | error e =>
      simp only [hx, hpost] at h
      exact absurd h (by simp)
    | ok pr =>
      obtain ⟨postOut, cs⟩ := pr
      simp only [hx, hpost, Except.ok.injEq, Prod.mk.injEq] at h
      exact ⟨[], postOut, h.1.symm, rfl⟩
  | cons z zs ih =>
    intro post r c h
    simp only [List.cons_append] at h
    unfold processItems at h
    cases hz : processItem req n now z with
    | error e =>
      simp only [hz] at h
      exact absurd h (by simp)
    | ok pz =>
      obtain ⟨zOut, cz⟩ := pz
      cases hrest : processItems req n now (zs ++ x :: post) with
      | error e =>
        simp only [hz, hrest] at h
        exact absurd h (by simp)
      | ok pr =>
        obtain ⟨restOut, cs⟩ := pr
        simp only [hz, hrest, Except.ok.injEq, Prod.mk.injEq] at h
        obtain ⟨hr, hc⟩ := h
        obtain ⟨rpre, rpost, hre, hlen⟩ := ih post restOut cs hrest
        refine ⟨zOut :: rpre, rpost, ?_, ?_⟩
        · rw [← hr, hre]
          rfl
        · simp [hlen]

theorem updateOrderStatus_ok_items (req : UpdReq) (now : Nat) (o o' : OrderSt)
    (h : updateOrderStatus req now o = Except.ok o') :
    ∃ items1 count,
      processItems req (normalizeStatus req.status) now o.items = Except.ok (items1, count) ∧
      o'.items = (if o.paymentStatus = "completed" then autoConfirm now items1 else items1) := by
  unfold updateOrderStatus at h
  by_cases c1 : validStatuses.contains (normalizeStatus req.status)
  · rw [if_neg (by simpa using c1)] at h
    by_cases c2 : (o.items.all fun i =>
        i.itemStatus == "delivered" || i.itemStatus == "returned" ||
          i.itemStatus == "cancelled") = true ∧ normalizeStatus req.status ≠ "returned"
    · rw [if_pos c2] at h
      exact absurd h (by simp)
    · rw [if_neg c2] at h
      cases hpe : processItems req (normalizeStatus req.status) now o.items with
      | error e =>
        rw [hpe] at h
        exact absurd h (by simp)
      | ok pr =>
        obtain ⟨items1, count⟩ := pr
        simp only [hpe] at h
        by_cases c4 : count = 0
        · rw [if_pos c4] at h
          exact absurd h (by simp)
        · rw [if_neg c4] at h
          injection h with h'
          subst h'
          exact ⟨items1, count, rfl, rfl⟩
  · rw [if_pos (by simpa using c1)] at h
    exact absurd h (by simp)

/-- C6 amended: a backward status-update request never mutates the
backward item: whatever the caller's role, target selection and sibling
items, any saved order preserves the item — `itemStatus` and
`statusHistory` included — unchanged at its position, and no
InvalidTransition error is raised for it.  But the request is not silent
when nothing updates: on a single-item order the handler answers the
generic "No valid items found to update or permission denied" error —
unless that item is already `delivered`, in which case the
fully-delivered guard answers "Order is fully delivered/completed. No
further updates allowed." first.  Either error is returned before
`order.save()`, leaving the order unchanged. -/
theorem C6_backward_amended :
    (∀ (req : UpdReq) (now : Nat) (o o' : OrderSt) (pre : List OrderItem) (x : OrderItem)
        (post : List OrderItem),
      o.items = pre ++ x :: post →
      0 ≤ indexOfStr hierarchy (normalizeStatus req.status) →
      indexOfStr hierarchy (normalizeStatus req.status) < indexOfStr hierarchy x.itemStatus →
      updateOrderStatus req now o = Except.ok o' →
      ∃ rpre rpost, o'.items = rpre ++ x :: rpost ∧ rpre.length = pre.length) ∧
    (∀ (it : OrderItem) (notes : Option String) (uid now : Nat) (t : String) (o : OrderSt),
      o.items = [it] →
      0 ≤ indexOfStr hierarchy t →
      indexOfStr hierarchy t < indexOfStr hierarchy it.itemStatus →
      indexOfStr hierarchy it.itemStatus ≤ 3 →
      updateOrderStatus
          { userId := uid, role := "admin", status := t, notes := notes,
            itemId := some it.id } now o =
        Except.error "No valid items found to update or permission denied") ∧
    (∀ (it : OrderItem) (notes : Option String) (uid now : Nat) (t : String) (o : OrderSt),
      o.items = [it] → it.itemStatus = "delivered" →
      0 ≤ indexOfStr hierarchy t → indexOfStr hierarchy t < 4 →
      updateOrderStatus
          { userId := uid, role := "admin", status := t, notes := notes,
            itemId := some it.id } now o =
        Except.error "Order is fully delivered/completed. No further updates allowed.") := by
  refine ⟨?_, ?_, ?_⟩
  · intro req now o o' pre x post hitems ht hlt hok
    obtain ⟨items1, count, hpi, hitems2⟩ := updateOrderStatus_ok_items req now o o' hok
    have hx := processItem_backward_any req (normalizeStatus req.status) now x ht hlt
    rw [hitems] at hpi
    obtain ⟨rpre, rpost, hre, hlen⟩ :=
      processItems_skip_preserved req (normalizeStatus req.status) now x hx pre post
        items1 count hpi
    have hxp : x.itemStatus ≠ "pending" := by
      intro he
      have h0 : indexOfStr hierarchy "pending" = 0 := by decide
      rw [he, h0] at hlt
      omega
    rw [hitems2, hre]
    by_cases hpay : o.paymentStatus = "completed"
    · rw [if_pos hpay]
      refine ⟨autoConfirm now rpre, autoConfirm now rpost, ?_, ?_⟩
      · simp [autoConfirm, hxp]
      · simp [autoConfirm, hlen]
    · rw [if_neg hpay]
      exact ⟨rpre, rpost, rfl, hlen⟩
  · intro it notes uid now t o hitems ht hlt hle
    have hk : 0 ≤ indexOfStr hierarchy it.itemStatus := by omega
    have htmem : t ∈ hierarchy := indexOfStr_mem hierarchy t ht
    have hU : normalizeStatus t = t := by
      unfold normalizeStatus
      rw [if_neg (by fin_cases htmem <;> decide)]
    have htv : t ∈ validStatuses := by
      fin_cases htmem <;> decide
    have hsfin : (it.itemStatus == "delivered" || it.itemStatus == "returned" ||
        it.itemStatus == "cancelled") = false := by
      have hnd : it.itemStatus ≠ "delivered" := by
        intro he
        have h4 : indexOfStr hierarchy "delivered" = 4 := by decide
        rw [he, h4] at hle
        omega
      have hnc : it.itemStatus ≠ "cancelled" := by
        intro he
        rw [he] at hk
        exact absurd hk (by decide)
      have hnr : it.itemStatus ≠ "returned" := by
        intro he
        rw [he] at hk
        exact absurd hk (by decide)
      simp [beq_eq_false_iff_ne, hnd, hnc, hnr]
    have hfin : (o.items.all fun i =>
        i.itemStatus == "delivered" || i.itemStatus == "returned" ||
          i.itemStatus == "cancelled") = false := by
      rw [hitems, List.all_eq_false]
      exact ⟨it, by simp, by simp [hsfin]⟩
    have hstep := processItem_backward
      { userId := uid, role := "admin", status := t, notes := notes, itemId := some it.id }
      t now it rfl rfl ht hlt
    have hproc : processItems
        { userId := uid, role := "admin", status := t, notes := notes, itemId := some it.id }
        t now [it] = Except.ok ([it], 0) := by
      simp [processItems, hstep]
    unfold updateOrderStatus
    simp only [hU]
    rw [if_neg (by simp [htv])]
    rw [if_neg (by simp [hfin])]
    rw [hitems, hproc]
    rfl
  · intro it notes uid now t o hitems hdel ht hlt4
    have htmem : t ∈ hierarchy := indexOfStr_mem hierarchy t ht
    have hU : normalizeStatus t = t := by
      unfold normalizeStatus
      rw [if_neg (by fin_cases htmem <;> decide)]
    have htv : t ∈ validStatuses := by
      fin_cases htmem <;> decide
    have hret : t ≠ "returned" := by
      intro he
      rw [he] at ht
      exact absurd ht (by decide)
    have hfin : (o.items.all fun i =>
        i.itemStatus == "delivered" || i.itemStatus == "returned" ||
          i.itemStatus == "cancelled") = true := by
      rw [hitems]
      simp [hdel]
    unfold updateOrderStatus
    simp only [hU]
    rw [if_neg (by simp [htv])]
    rw [if_pos ⟨hfin, hret⟩]

/-- Witness for C6's amended statement: (1) on a two-item order, a
request that confirms the pending item saves the order with the
backward-targeted `processing` item preserved unchanged at its position;
(2) a single `shipped` item with requested status `processing` gets the
generic no-valid-items error; (3) a single `delivered` item gets the
fully-delivered guard error. -/
theorem C6_backward_amended_witness :
    (∃ rpre rpost, c6multi1.items = rpre ++ mkOrdItem 1 "processing" :: rpost ∧
      rpre.length = ([] : List OrderItem).length) ∧
    updateOrderStatus
        { userId := 99, role := "admin", status := "processing", notes := none,
          itemId := some (mkOrdItem 1 "shipped").id } 5
        (baseOrder [mkOrdItem 1 "shipped"] "shipped") =
      Except.error "No valid items found to update or permission denied" ∧
    updateOrderStatus
        { userId := 99, role := "admin", status := "processing", notes := none,
          itemId := some (mkOrdItem 1 "delivered").id } 5
        (baseOrder [mkOrdItem 1 "delivered"] "delivered") =
      Except.error "Order is fully delivered/completed. No further updates allowed." :=
  ⟨C6_backward_amended.1 c6multiReq 5 c6multiOrder c6multi1 [] (mkOrdItem 1 "processing")
      [mkOrdItem 2 "pending"] rfl (by decide) (by decide) (by rfl),
   C6_backward_amended.2.1 (mkOrdItem 1 "shipped") none 99 5 "processing"
      (baseOrder [mkOrdItem 1 "shipped"] "shipped") rfl (by decide) (by decide) (by decide),
   C6_backward_amended.2.2 (mkOrdItem 1 "delivered") none 99 5 "processing"
      (baseOrder [mkOrdItem 1 "delivered"] "delivered") rfl rfl (by decide) (by decide)⟩

/-- Witness for C5: from `confirmed`, requesting `shipped` fails with the
message naming `processing` as the required next step. -/
theorem C5_skip_step_error_witness :
    updateOrderStatus
        { userId := 99, role := "admin", status := "shipped", notes := none,
          itemId := some (mkOrdItem 1 "confirmed").id } 5 c5order =
      Except.error "Cannot update item directly to shipped. Follow sequence: confirmed -> processing" := by
  have h := C5_skip_step_error [] [] (mkOrdItem 1 "confirmed") none 99 5 "shipped" c5order
    rfl (by simp) (by decide) (by decide)
  simpa [skipStepMsg] using h

end FoodyZone
